import Mathlib

/-!
Shallow embedding of the AlgoPoker tournament server
(config.py, protocol.py, game.py, tournament.py, server.py).

Python dicts on the wire are modelled either as typed structures or, where
the exact key set of a dict matters, as ordered `(key, value)` lists over a
JSON-like value type.  The PokerKit rules engine is out of scope (a black
box per the spec); the parts of its `State` that the source reads are a
plain record of the queried attributes.
-/

namespace AlgoPoker

/-- JSON-like values, for wire messages whose exact key set matters. -/
inductive JVal where
  | str (s : String)
  | num (n : Int)
  | jbool (b : Bool)
  | jnull
  | arr (xs : List JVal)
  | obj (fields : List (String × JVal))

/-! ## config.py -/

def MIN_PLAYERS : Nat := 2

def MAX_PLAYERS : Nat := 9

def STARTING_STACK : Nat := 10000

def ACTION_TIMEOUT_SECONDS : Nat := 30

def LOBBY_WAIT_SECONDS : Nat := 5

/-! ## protocol.py -/

/-- Every module-level name that protocol.py defines (message-type
constants, action strings, error-code constants, builder functions). -/
def protocolModuleNames : List String :=
  ["MSG_WAITING", "MSG_GAME_START", "MSG_HAND_START", "MSG_ACTION_REQUEST",
   "MSG_ACTION_RESULT", "MSG_HAND_END", "MSG_GAME_END", "MSG_ERROR",
   "MSG_JOIN", "MSG_ACTION",
   "ACTION_FOLD", "ACTION_CHECK", "ACTION_CALL", "ACTION_RAISE",
   "ERR_BAD_JOIN", "ERR_BAD_NAME", "ERR_TOURNAMENT_FULL",
   "ERR_TOURNAMENT_STARTED", "ERR_BAD_JSON", "ERR_UNKNOWN_TYPE",
   "build_waiting", "build_game_start", "build_hand_start",
   "build_action_request", "build_action_result", "build_hand_end",
   "build_game_end", "build_error"]

/-- The names tournament.py imports from protocol (tournament.py lines
15-29). -/
def tournamentProtocolImports : List String :=
  ["build_action_request", "build_action_result", "build_game_end",
   "build_game_start", "build_hand_end", "build_hand_start", "build_waiting",
   "build_error", "ERR_BAD_NAME", "ERR_TOURNAMENT_FULL",
   "ERR_TOURNAMENT_STARTED", "ERR_BAD_ACTION", "ACTION_RAISE"]

/-- One element of `hand_end.winners` (protocol.py `build_hand_end` doc). -/
structure WinnerEntry where
  seat : Nat
  name : String
  amount_won : Int
  deriving DecidableEq, Inhabited

/-- One element of `hand_end.hole_cards_revealed`. -/
structure RevealEntry where
  seat : Nat
  name : String
  hole_cards : List String
  deriving DecidableEq, Inhabited

def winnerToJVal (w : WinnerEntry) : JVal :=
  .obj [("seat", .num w.seat), ("name", .str w.name),
        ("amount_won", .num w.amount_won)]

def revealToJVal (r : RevealEntry) : JVal :=
  .obj [("seat", .num r.seat), ("name", .str r.name),
        ("hole_cards", .arr (r.hole_cards.map .str))]

/-- protocol.py `build_hand_end`: the returned dict, as the ordered list of
its (key, value) pairs, exactly the keys written in the source. -/
def build_hand_end (hand_number : Nat) (winners : List WinnerEntry)
    (hole_cards_revealed : List RevealEntry) (final_stacks : List Int)
    (player_names : List String) (eliminated_seats : List Nat) :
    List (String × JVal) :=
  [("type", .str "hand_end"),
   ("hand_number", .num hand_number),
   ("winners", .arr (winners.map winnerToJVal)),
   ("hole_cards_revealed", .arr (hole_cards_revealed.map revealToJVal)),
   ("final_stacks", .arr (final_stacks.map .num)),
   ("player_names", .arr (player_names.map .str)),
   ("eliminated_seats", .arr (eliminated_seats.map (fun s => .num s)))]

/-- The parameter names of protocol.py `build_hand_end`. -/
def build_hand_end_params : List String :=
  ["hand_number", "winners", "hole_cards_revealed", "final_stacks",
   "player_names", "eliminated_seats"]

/-- The keyword arguments tournament.py `_run_hand` passes in its
`build_hand_end(...)` call (tournament.py lines 361-369). -/
def run_hand_hand_end_kwargs : List String :=
  ["hand_number", "winners", "hole_cards_revealed", "community_cards",
   "final_stacks", "player_names", "eliminated_seats"]

/-- Python keyword-call semantics: the call succeeds iff every keyword
names a parameter of the callee; otherwise it raises
`TypeError: unexpected keyword argument`. -/
def kwargCallOk (params kwargs : List String) : Bool :=
  kwargs.all fun k => params.contains k

/-- protocol.py `build_hand_start` (typed form of the returned dict). -/
structure HandStartMsg where
  type : String
  hand_number : Nat
  dealer_seat : Nat
  small_blind_seat : Nat
  big_blind_seat : Nat
  small_blind_amount : Nat
  big_blind_amount : Nat
  player_names : List String
  stacks' : List Int
  hole_cards : List String
  deriving DecidableEq, Inhabited

def build_hand_start (hand_number dealer_seat small_blind_seat
    big_blind_seat small_blind_amount big_blind_amount : Nat)
    (player_names : List String) (stacks' : List Int)
    (hole_cards : List String) : HandStartMsg :=
  { type := "hand_start"
    hand_number := hand_number
    dealer_seat := dealer_seat
    small_blind_seat := small_blind_seat
    big_blind_seat := big_blind_seat
    small_blind_amount := small_blind_amount
    big_blind_amount := big_blind_amount
    player_names := player_names
    stacks' := stacks'
    hole_cards := hole_cards }

/-! ## game.py -/

/-- The fields of tournament.py `PlayerInfo` that game.py reads. -/
structure PlayerInfoG where
  seat_index : Nat
  name : String
  deriving DecidableEq, Inhabited

/-- The attributes of the external PokerKit `State` that game.py reads. -/
structure EngineState where
  statuses : List Bool
  hole_cards : List (List String)
  board_cards : List (List String)
  stacks' : List Int
  bets : List Int
  payoffs : List Int
  pots : List (Int × List Nat)
  total_pot_amount : Int
  actor_index : Option Nat
  street_index : Option Nat
  can_fold : Bool
  checking_or_calling_amount : Option Int
  min_raise_to : Option Int
  max_raise_to : Option Int
  can_complete_min_raise : Bool
  deriving DecidableEq, Inhabited

/-- game.py `PokerHand` (the Python-side fields; `state` is the engine). -/
structure PokerHandM where
  active_players : List PlayerInfoG
  dealer_pk : Nat
  sb_pk : Nat
  bb_pk : Nat
  sb_amount : Nat
  bb_amount : Nat
  hand_number : Nat
  dealt_hole_cards : List (List String)
  active_before_last_action : List Nat
  state : EngineState
  deriving DecidableEq, Inhabited

def STREET_NAMES : List String := ["preflop", "flop", "turn", "river"]

/-- game.py `current_street`. -/
def current_street (h : PokerHandM) : String :=
  match h.state.street_index with
  | none => "showdown"
  | some idx => STREET_NAMES.getD idx "unknown"

/-- One entry of `get_valid_actions()` (a tagged dict in the source). -/
inductive ValidAction where
  | fold
  | check
  | call (amount : Int)
  | raiseTo (min_amount max_amount : Int)
  deriving DecidableEq

/-- The `"type"` string of a valid-action entry. -/
def ValidAction.vaType : ValidAction → String
  | .fold => "fold"
  | .check => "check"
  | .call _ => "call"
  | .raiseTo _ _ => "raise"

/-- game.py `get_valid_actions`. -/
def get_valid_actions (h : PokerHandM) : List ValidAction :=
  let acts := if h.state.can_fold then [ValidAction.fold] else []
  match h.state.checking_or_calling_amount with
  | none => acts
  | some call_amount =>
    let acts := acts ++
      [if call_amount = 0 then ValidAction.check else ValidAction.call call_amount]
    match h.state.min_raise_to, h.state.max_raise_to with
    | some min_r, some max_r =>
      if h.state.can_complete_min_raise then acts ++ [ValidAction.raiseTo min_r max_r]
      else acts
    | _, _ => acts

/-- game.py `_seat_to_pk` (the source raises when the seat is absent; the
embedding returns `none` there). -/
def seat_to_pk (h : PokerHandM) (seat_index : Nat) : Option Nat :=
  h.active_players.findIdx? (fun p => p.seat_index == seat_index)

/-- game.py `get_hole_cards`. -/
def get_hole_cards (h : PokerHandM) (seat_index : Nat) : List String :=
  match seat_to_pk h seat_index with
  | some pk => h.state.hole_cards.getD pk []
  | none => []

/-- One element of a `game_state.players` array. -/
structure PlayerView where
  seat : Nat
  name : String
  stack : Int
  current_bet : Int
  is_active : Bool
  is_all_in : Bool
  is_dealer : Bool
  is_small_blind : Bool
  is_big_blind : Bool
  hole_cards : List String
  hole_cards_known : Bool
  deriving DecidableEq, Inhabited

/-- The loop body of the `players` construction in game.py
`get_game_state`: the view of the player at PokerKit index `pk`, censored
unless `pk` is the index of the perspective player. -/
def game_state_player_entry (h : PokerHandM) (perspective_pk : Option Nat)
    (pk : Nat) : PlayerView :=
  let player := h.active_players.getD pk default
  let stack := h.state.stacks'.getD pk 0
  let bet := h.state.bets.getD pk 0
  let is_active := h.state.statuses.getD pk false
  let raw_cards := h.state.hole_cards.getD pk []
  let own := some pk == perspective_pk
  { seat := player.seat_index
    name := player.name
    stack := stack
    current_bet := bet
    is_active := is_active
    is_all_in := is_active && stack == 0
    is_dealer := pk == h.dealer_pk
    is_small_blind := pk == h.sb_pk
    is_big_blind := pk == h.bb_pk
    hole_cards := if own then raw_cards else raw_cards.map (fun _ => "??")
    hole_cards_known := own }

/-- The `players` array built inside game.py `get_game_state`: only the
hole cards of the perspective player are revealed, all others are censored to
`"??"` placeholders. -/
def game_state_players (h : PokerHandM) (perspective_seat : Nat) :
    List PlayerView :=
  (List.range h.active_players.length).map
    (game_state_player_entry h (seat_to_pk h perspective_seat))

/-- A `game_state` dict (typed form). -/
structure GameState where
  street : String
  hand_number : Nat
  community_cards : List String
  pot_total : Int
  pots : List (Int × List Nat)
  players : List PlayerView
  actor_seat : Option Nat
  valid_actions : List ValidAction
  dealer_seat : Nat
  small_blind_seat : Nat
  big_blind_seat : Nat
  small_blind_amount : Nat
  big_blind_amount : Nat
  deriving DecidableEq, Inhabited

/-- game.py `get_game_state`. -/
def get_game_state (h : PokerHandM) (perspective_seat : Nat) : GameState :=
  { street := current_street h
    hand_number := h.hand_number
    community_cards := h.state.board_cards.flatten
    pot_total := h.state.total_pot_amount
    pots := h.state.pots.map (fun pot =>
      (pot.1, pot.2.map (fun pk => (h.active_players.getD pk default).seat_index)))
    players := game_state_players h perspective_seat
    actor_seat := h.state.actor_index.map
      (fun pk => (h.active_players.getD pk default).seat_index)
    valid_actions := get_valid_actions h
    dealer_seat := (h.active_players.getD h.dealer_pk default).seat_index
    small_blind_seat := (h.active_players.getD h.sb_pk default).seat_index
    big_blind_seat := (h.active_players.getD h.bb_pk default).seat_index
    small_blind_amount := h.sb_amount
    big_blind_amount := h.bb_amount }

/-- game.py `apply_action`, raise branch: the amount actually passed to
`complete_bet_or_raise_to` after the engine-side clamp (`min_r`/`max_r`
are the min/max completion amounts of the engine at that moment). -/
def apply_action_raise_amount (min_r max_r : Int) (amount : Option Int) : Int :=
  match amount with
  | none => min_r
  | some a => max min_r (min max_r a)

/-- game.py `apply_action`: the `_active_before_last_action` snapshot taken
at the start of the call (pk indices whose engine status is truthy). -/
def snapshot_active_before (h : PokerHandM) : List Nat :=
  (List.range h.active_players.length).filter
    (fun pk => h.state.statuses.getD pk false)

/-- game.py `apply_action` as a record transformer: it first snapshots
`_active_before_last_action` from the pre-call statuses, then the engine
(black box) transitions to `newState`. -/
def apply_action_record (h : PokerHandM) (newState : EngineState) : PokerHandM :=
  { h with active_before_last_action := snapshot_active_before h
           state := newState }

/-- game.py `get_hand_result`, showdown detection: at least one player
has non-empty post-resolution hole cards. -/
def showdown_occurred (h : PokerHandM) : Bool :=
  (List.range h.active_players.length).any
    (fun pk => !((h.state.hole_cards.getD pk []).isEmpty))

/-- The dict returned by game.py `get_hand_result`. -/
structure HandResult where
  winners : List WinnerEntry
  hole_cards_revealed : List RevealEntry
  community_cards : List String
  final_stacks_by_pk : List Int
  deriving DecidableEq

/-- game.py `get_hand_result`. -/
def get_hand_result (h : PokerHandM) : HandResult :=
  { winners := (List.range h.active_players.length).filterMap (fun pk =>
      let payoff := h.state.payoffs.getD pk 0
      if payoff > 0 then
        some { seat := (h.active_players.getD pk default).seat_index
               name := (h.active_players.getD pk default).name
               amount_won := payoff }
      else none)
    hole_cards_revealed :=
      if showdown_occurred h then
        h.active_before_last_action.map (fun pk =>
          { seat := (h.active_players.getD pk default).seat_index
            name := (h.active_players.getD pk default).name
            hole_cards := h.dealt_hole_cards.getD pk [] })
      else []
    community_cards := h.state.board_cards.flatten
    final_stacks_by_pk := (List.range h.active_players.length).map
      (fun pk => h.state.stacks'.getD pk 0) }

/-! ## tournament.py -/

/-- tournament.py `PlayerInfo` (tournament-side fields). -/
structure PlayerInfoT where
  name : String
  seat_index : Nat
  stack : Int
  is_eliminated : Bool
  deriving DecidableEq, Inhabited

/-- What `_get_action` receives from the mailbox of the actor after the
await/parse phase: a timeout, the disconnect sentinel, a record whose
parse raises (malformed), or a parsed action `{type, amount}`. -/
inductive IncomingMsg where
  | timeout
  | disconnectSentinel
  | malformed
  | actionMsg (action_type : String) (amount : Option Int)
  deriving DecidableEq

/-- The result of `_get_action`: the returned `(action_type, amount,
timed_out)` triple plus, when a `build_error(...)` is sent to the player,
the name of the protocol constant passed as its error code. -/
structure ActionOutcome where
  action_type : String
  amount : Option Int
  timed_out : Bool
  error_const : Option String
  deriving DecidableEq

/-- tournament.py `_get_action` (validation logic, lines 391-447). -/
def get_action (msg : IncomingMsg) (valid_actions : List ValidAction) :
    ActionOutcome :=
  match msg with
  | .timeout => ⟨"fold", none, true, none⟩
  | .disconnectSentinel => ⟨"fold", none, true, none⟩
  | .malformed => ⟨"fold", none, true, some "ERR_BAD_ACTION"⟩
  | .actionMsg t a =>
    let valid_types := valid_actions.map ValidAction.vaType
    if t ∈ valid_types then
      if t = "raise" then
        match valid_actions.find? (fun v => v.vaType == "raise") with
        | some (.raiseTo min_r max_r) =>
          match a with
          | none => ⟨"fold", none, true, some "ERR_BAD_ACTION"⟩
          | some amt =>
            if min_r ≤ amt ∧ amt ≤ max_r then ⟨t, some amt, false, none⟩
            else ⟨t, some (max min_r (min max_r amt)), false, none⟩
        | _ =>
          -- unreachable: `"raise" ∈ valid_types` forces a `raiseTo` entry
          ⟨"fold", none, true, some "ERR_BAD_ACTION"⟩
      else ⟨t, a, false, none⟩
    else ⟨"fold", none, true, some "ERR_BAD_ACTION"⟩

/-- protocol.py `build_action_result` (typed form; `action` flattened into
`action_type`/`action_amount`). -/
structure ActionResultMsg where
  type : String
  actor_seat : Nat
  player_name : String
  action_type : String
  action_amount : Option Int
  timed_out : Bool
  game_state : GameState
  deriving DecidableEq

def build_action_result (actor_seat : Nat) (player_name : String)
    (action_type : String) (amount : Option Int) (timed_out : Bool)
    (game_state : GameState) : ActionResultMsg :=
  { type := "action_result"
    actor_seat := actor_seat
    player_name := player_name
    action_type := action_type
    action_amount := amount
    timed_out := timed_out
    game_state := game_state }

/-- tournament.py `_broadcast`: the recipients are exactly the
non-eliminated players. -/
def broadcast_targets (players : List PlayerInfoT) : List PlayerInfoT :=
  players.filter (fun p => !p.is_eliminated)

/-- tournament.py `_run_hand` lines 350-356, per player: the stack update
from `final_stacks_by_pk` and the elimination update (a player in the hand
is looked up by seat among the active seats of the hand; the flag only ever
goes to true). -/
def update_player_after_hand (active_seats : List Nat)
    (final_stacks_by_pk : List Int) (p : PlayerInfoT) : PlayerInfoT :=
  match active_seats.findIdx? (fun s => s == p.seat_index) with
  | some pk =>
    let s := final_stacks_by_pk.getD pk 0
    { p with stack := s, is_eliminated := p.is_eliminated || s == 0 }
  | none => p

def update_players_after_hand (players : List PlayerInfoT)
    (active_seats : List Nat) (final_stacks_by_pk : List Int) :
    List PlayerInfoT :=
  players.map (update_player_after_hand active_seats final_stacks_by_pk)

/-- tournament.py `_rotate_dealer`: `seats` is the seat list of the active
players (ascending, from `_active_players`); `list.index` is `findIdx?`,
`except ValueError` makes `current = -1`, and `(-1 + 1) % len = 0`. -/
def rotate_dealer (seats : List Nat) (dealer_seat : Nat) : Nat :=
  match seats.findIdx? (fun s => s == dealer_seat) with
  | some current => seats.getD ((current + 1) % seats.length) 0
  | none => seats.getD 0 0

/-- Modelled from the spec (for comparison with `rotate_dealer`, which is
the source): "the dealer seat moves to the next-higher active seat", i.e.
the smallest active seat strictly greater than the previous `dealer_seat`,
wrapping to the smallest active seat when no greater one exists. -/
def next_dealer_spec (seats : List Nat) (dealer_seat : Nat) : Nat :=
  match (seats.filter (fun s => dealer_seat < s)).min? with
  | some m => m
  | none => (seats.min?).getD 0

/-! ## server.py -/

/-- server.py lines 131-136 with `asyncio.Queue(maxsize=1)`
(tournament.py line 61): `put_nowait` on a full queue raises `QueueFull`,
which the handler swallows, so the arriving message is dropped. -/
def enqueue_action {α : Type} (queue : List α) (msg : α) : List α :=
  if queue.length < 1 then queue ++ [msg] else queue

/-! ## Lobby start subsystem (tournament.py `_delayed_start`,
`force_start`, `_lobby_ready`) -/

structure LobbyState where
  started : Bool
  lobby_ready : Bool
  deriving DecidableEq

inductive LobbyEvent where
  | elapse (seconds : Nat)
  | forceStartRequest
  deriving DecidableEq

/-- tournament.py `_delayed_start` does `await self._lobby_ready.wait()`;
only `force_start` ever sets `_lobby_ready`, and no statement in
tournament.py sleeps on `config.LOBBY_WAIT_SECONDS`.  So when time merely
elapses, the waiting coroutine resumes (and starts the tournament) only if
the event is already set, while a force-start request sets the event and
starts the tournament. -/
def lobby_step (s : LobbyState) (e : LobbyEvent) : LobbyState :=
  match e with
  | .elapse _ =>
    if s.lobby_ready && !s.started then { s with started := true } else s
  | .forceStartRequest =>
    if s.started then s else { started := true, lobby_ready := true }

def lobby_run (s : LobbyState) (events : List LobbyEvent) : LobbyState :=
  events.foldl lobby_step s

/-- The lobby state right after `_delayed_start` is armed: min players just
reached, tournament not started, `_lobby_ready` not set. -/
def lobby_armed : LobbyState := ⟨false, false⟩

/-! ## Theorems -/

/-- C1: on an action whose `type` is not among the captured valid types
(scenario S4 of the spec, type bet, against fold/check), `_get_action`
auto-folds and sends a `build_error` whose code is the protocol constant
`ERR_BAD_ACTION` — but `ERR_BAD_ACTION` is among the names that
tournament.py pulls in from protocol while protocol.py defines no such
name, so loading the module fails and no `BAD_ACTION` error can ever be
produced. -/
theorem c1_bad_action_constant_missing :
    get_action (.actionMsg "bet" none) [ValidAction.fold, ValidAction.check]
      = ⟨"fold", none, true, some "ERR_BAD_ACTION"⟩
    ∧ "ERR_BAD_ACTION" ∈ tournamentProtocolImports
    ∧ "ERR_BAD_ACTION" ∉ protocolModuleNames := by
  refine ⟨rfl, by decide, by decide⟩

/-- C2: tournament.py passes `community_cards=...` in its `build_hand_end`
call, but `build_hand_end` of protocol.py accepts no such parameter (the
call raises TypeError), and the dict `build_hand_end` builds carries no
`community_cards` key — so no `hand_end` record carries the board cards. -/
theorem c2_hand_end_missing_community_cards :
    kwargCallOk build_hand_end_params run_hand_hand_end_kwargs = false
    ∧ ∀ hand_number winners hole_cards_revealed final_stacks player_names
        eliminated_seats,
        "community_cards" ∉ (build_hand_end hand_number winners
          hole_cards_revealed final_stacks player_names
          eliminated_seats).map Prod.fst := by
  constructor
  · decide
  · intro hn w r f p e
    simp [build_hand_end]

/-- C3: once `_delayed_start` is armed (min players reached), the mere
passage of time never starts the tournament: `_delayed_start` blocks on
the force-start event and nothing in tournament.py sleeps on
`config.LOBBY_WAIT_SECONDS`, so without an external signal the
delayed-start path never fires — in particular not after the configured
5-second grace window. -/
theorem c3_delayed_start_never_fires_on_timer (events : List LobbyEvent)
    (h : ∀ e ∈ events, ∃ t, e = LobbyEvent.elapse t) :
    (lobby_run lobby_armed events).started = false := by
  suffices hh : lobby_run lobby_armed events = lobby_armed by rw [hh]; rfl
  induction events with
  | nil => rfl
  | cons e es ih =>
    obtain ⟨t, het⟩ := h e (by simp)
    subst het
    show lobby_run (lobby_step lobby_armed (LobbyEvent.elapse t)) es = lobby_armed
    exact ih (fun x hx => h x (by simp [hx]))

/-- Witness for C3: the grace window elapsing changes nothing. -/
theorem c3_witness :
    (lobby_run lobby_armed [LobbyEvent.elapse LOBBY_WAIT_SECONDS]).started
      = false :=
  c3_delayed_start_never_fires_on_timer [LobbyEvent.elapse LOBBY_WAIT_SECONDS]
    (fun e he => ⟨LOBBY_WAIT_SECONDS, by simpa using he⟩)

/-- C4 counterexample: a record arriving while the capacity-1 mailbox
already holds one does NOT displace the older record — `put_nowait` raises
`QueueFull` and server.py drops the newcomer — so the mailbox afterwards
does not hold the most recent record. -/
theorem c4_counterexample :
    enqueue_action [(0 : Nat)] 1 = [0] ∧ enqueue_action [(0 : Nat)] 1 ≠ [1] := by
  decide

/-- C4 amended: the mailbox holds at most one record, and when an in-turn
record arrives while the mailbox already holds one, the NEWER record is
silently dropped and the mailbox keeps the OLDER record (staleness is
handled instead by the hand loop draining the mailbox before each
prompt). -/
theorem c4_amended {α : Type} (queue : List α) (msg old : α)
    (hb : queue.length ≤ 1) :
    (enqueue_action queue msg).length ≤ 1
    ∧ enqueue_action ([] : List α) msg = [msg]
    ∧ enqueue_action [old] msg = [old] := by
  refine ⟨?_, rfl, rfl⟩
  unfold enqueue_action
  by_cases hq : queue.length < 1
  · rw [if_pos hq]
    simp only [List.length_append, List.length_cons, List.length_nil]
    omega
  · rw [if_neg hq]
    exact hb

/-- Witness for C4 amended. -/
theorem c4_amended_witness :
    ([(0 : Nat)] : List Nat).length ≤ 1
    ∧ ((enqueue_action [(0 : Nat)] 1).length ≤ 1
       ∧ enqueue_action ([] : List Nat) 1 = [1]
       ∧ enqueue_action [(37 : Nat)] 1 = [37]) :=
  ⟨by decide, c4_amended [(0 : Nat)] 1 37 (by decide)⟩

/-- C7: `apply_action` snapshots the pks still in the hand just before the
engine call; when the post-resolution state shows a showdown (the hole
cards of some seat remain tabled), `get_hand_result` reveals exactly those
snapshotted seats, each with the originally-dealt cards (the construction
snapshot `dealt_hole_cards`, overriding any auto-muck); with no showdown
it reveals nothing. -/
theorem c7_showdown_reveal (h : PokerHandM) (s' : EngineState) :
    (showdown_occurred (apply_action_record h s') = true →
      (get_hand_result (apply_action_record h s')).hole_cards_revealed
        = (snapshot_active_before h).map (fun pk =>
            { seat := (h.active_players.getD pk default).seat_index
              name := (h.active_players.getD pk default).name
              hole_cards := h.dealt_hole_cards.getD pk [] }))
    ∧ (showdown_occurred (apply_action_record h s') = false →
      (get_hand_result (apply_action_record h s')).hole_cards_revealed = []) := by
  constructor
  · intro hsd
    simp only [get_hand_result, hsd]
    simp [apply_action_record]
  · intro hsd
    simp only [get_hand_result, hsd]
    simp

/-- A concrete two-player hand (Alice seat 0, Bob seat 1) used by the
witnesses: the engine state right after dealing. -/
def exampleEngineState : EngineState :=
  { statuses := [true, true]
    hole_cards := [["Ah", "Kd"], ["2c", "7s"]]
    board_cards := []
    stacks' := [9950, 9900]
    bets := [50, 100]
    payoffs := [0, 0]
    pots := [(150, [0, 1])]
    total_pot_amount := 150
    actor_index := some 0
    street_index := some 0
    can_fold := true
    checking_or_calling_amount := some 50
    min_raise_to := some 200
    max_raise_to := some 10000
    can_complete_min_raise := true }

def exampleHand : PokerHandM :=
  { active_players := [⟨0, "Alice"⟩, ⟨1, "Bob"⟩]
    dealer_pk := 0
    sb_pk := 0
    bb_pk := 1
    sb_amount := 50
    bb_amount := 100
    hand_number := 1
    dealt_hole_cards := [["Ah", "Kd"], ["2c", "7s"]]
    active_before_last_action := [0, 1]
    state := exampleEngineState }

/-- A terminal engine state for the same hand: the cards of Bob were
auto-mucked by the engine, those of Alice remain tabled (showdown
occurred). -/
def exampleEndState : EngineState :=
  { exampleEngineState with
      statuses := [true, false]
      hole_cards := [["Ah", "Kd"], []]
      board_cards := [["Jc", "3d", "5c"], ["9h"], ["Qs"]]
      stacks' := [10100, 9900]
      bets := [0, 0]
      payoffs := [150, -100]
      actor_index := none
      street_index := none
      can_fold := false
      checking_or_calling_amount := none }

/-- Witness for C7: both seats were in at the final action; both are
revealed with the originally-dealt cards even though Bob was mucked. -/
theorem c7_witness :
    showdown_occurred (apply_action_record exampleHand exampleEndState) = true
    ∧ (get_hand_result
        (apply_action_record exampleHand exampleEndState)).hole_cards_revealed
      = [⟨0, "Alice", ["Ah", "Kd"]⟩, ⟨1, "Bob", ["2c", "7s"]⟩] :=
  ⟨by decide, by
    have hm := (c7_showdown_reveal exampleHand exampleEndState).1 (by decide)
    rw [hm]
    decide⟩

/-- C8: a raise whose submitted amount lies outside the captured
`[min_amount, max_amount]` range is NOT auto-folded: `_get_action` returns
a raise clamped to `max min_r (min max_r amt)` with `timed_out = false`
and no error, the engine-side clamp in `apply_action` leaves that amount
unchanged, and the broadcast `action_result` carries the clamped amount
with `timed_out = false`. -/
theorem c8_raise_out_of_range_clamped
    (valid_actions : List ValidAction) (min_r max_r amt : Int)
    (hfind : valid_actions.find? (fun v => v.vaType == "raise")
       = some (ValidAction.raiseTo min_r max_r))
    (hout : ¬ (min_r ≤ amt ∧ amt ≤ max_r)) (hminmax : min_r ≤ max_r) :
    get_action (.actionMsg "raise" (some amt)) valid_actions
      = ⟨"raise", some (max min_r (min max_r amt)), false, none⟩
    ∧ apply_action_raise_amount min_r max_r (some (max min_r (min max_r amt)))
        = max min_r (min max_r amt)
    ∧ ∀ seat pname gs,
        (build_action_result seat pname "raise"
            (some (max min_r (min max_r amt))) false gs).timed_out = false
        ∧ (build_action_result seat pname "raise"
            (some (max min_r (min max_r amt))) false gs).action_amount
          = some (max min_r (min max_r amt)) := by
  have hmem : ValidAction.raiseTo min_r max_r ∈ valid_actions :=
    List.mem_of_find?_eq_some hfind
  have hr : "raise" ∈ valid_actions.map ValidAction.vaType :=
    List.mem_map_of_mem _ hmem
  refine ⟨?_, ?_, ?_⟩
  · simp only [get_action]
    rw [if_pos hr, if_true, hfind]
    simp [hout]
  · simp only [apply_action_raise_amount]
    omega
  · intro seat pname gs
    exact ⟨rfl, rfl⟩

/-- Witness for C8: amount 5 below the [20, 100] range is clamped to 20. -/
theorem c8_witness :
    get_action (.actionMsg "raise" (some 5))
        [ValidAction.fold, ValidAction.call 10, ValidAction.raiseTo 20 100]
      = ⟨"raise", some 20, false, none⟩ := by
  have hc : max (20 : Int) (min 100 5) = 20 := by decide
  have hmain := (c8_raise_out_of_range_clamped
    [ValidAction.fold, ValidAction.call 10, ValidAction.raiseTo 20 100]
    20 100 5 (by decide) (by decide) (by decide)).1
  rw [hc] at hmain
  exact hmain

/-- C9: every validation auto-fold (malformed shape, unknown action type,
raise without an amount) is returned as `("fold", none, timed_out = true)`
— the same triple as a real timeout — and the broadcast `action_result`
built from it carries `timed_out = true` although the player answered in
time. -/
theorem c9_validation_autofolds_marked_timed_out
    (valid_actions : List ValidAction) (t : String) (a : Option Int)
    (ht : t ∉ valid_actions.map ValidAction.vaType) :
    get_action .timeout valid_actions = ⟨"fold", none, true, none⟩
    ∧ get_action .malformed valid_actions
        = ⟨"fold", none, true, some "ERR_BAD_ACTION"⟩
    ∧ get_action (.actionMsg t a) valid_actions
        = ⟨"fold", none, true, some "ERR_BAD_ACTION"⟩
    ∧ get_action (.actionMsg "raise" none) valid_actions
        = ⟨"fold", none, true, some "ERR_BAD_ACTION"⟩
    ∧ (∀ seat pname gs ty am,
        (build_action_result seat pname ty am true gs).timed_out = true) := by
  refine ⟨rfl, rfl, ?_, ?_, fun seat pname gs ty am => rfl⟩
  · simp only [get_action]
    rw [if_neg ht]
  · by_cases hr : "raise" ∈ valid_actions.map ValidAction.vaType
    · simp only [get_action]
      rw [if_pos hr, if_true]
      cases hf : valid_actions.find? (fun v => v.vaType == "raise") with
      | none => rfl
      | some v => cases v <;> rfl
    · simp only [get_action]
      rw [if_neg hr]

/-- Witness for C9: scenario S4 of the spec, an action of type bet. -/
theorem c9_witness :
    get_action (.actionMsg "bet" (some 5)) [ValidAction.fold, ValidAction.check]
      = ⟨"fold", none, true, some "ERR_BAD_ACTION"⟩ :=
  (c9_validation_autofolds_marked_timed_out
    [ValidAction.fold, ValidAction.check] "bet" (some 5) (by decide)).2.2.1

/-- C10: `_run_hand` updates stacks and elimination flags before the
`hand_end` broadcast, and `_broadcast` sends only to non-eliminated
players; so a player whose final stack for the hand is 0 is marked
eliminated and excluded from the `hand_end` broadcast (and, the flag never
reverting, from every later broadcast such as `game_end`). -/
theorem c10_eliminated_excluded_from_hand_end
    (players : List PlayerInfoT) (active_seats : List Nat)
    (final_stacks_by_pk : List Int) (p : PlayerInfoT) (pk : Nat)
    (hfind : active_seats.findIdx? (fun s => s == p.seat_index) = some pk)
    (hzero : final_stacks_by_pk.getD pk 0 = 0) :
    (update_player_after_hand active_seats final_stacks_by_pk p).is_eliminated
        = true
    ∧ (∀ q ∈ broadcast_targets
          (update_players_after_hand players active_seats final_stacks_by_pk),
        q.is_eliminated = false)
    ∧ update_player_after_hand active_seats final_stacks_by_pk p
        ∉ broadcast_targets
            (update_players_after_hand players active_seats final_stacks_by_pk)
    ∧ (∀ q : PlayerInfoT, q.is_eliminated = true →
        (∀ l : List PlayerInfoT, q ∉ broadcast_targets l)
        ∧ (update_player_after_hand active_seats final_stacks_by_pk
            q).is_eliminated = true) := by
  have h1 : (update_player_after_hand active_seats final_stacks_by_pk
      p).is_eliminated = true := by
    have hz : final_stacks_by_pk[pk]?.getD 0 = 0 := by simpa using hzero
    simp [update_player_after_hand, hfind, hz]
  have h2 : ∀ (q : PlayerInfoT) (l : List PlayerInfoT),
      q ∈ broadcast_targets l → q.is_eliminated = false := by
    intro q l hq
    have hmem := (List.mem_filter.mp hq).2
    simpa using hmem
  refine ⟨h1, fun q hq => h2 q _ hq, ?_, ?_⟩
  · intro hmem
    have hfalse := h2 _ _ hmem
    rw [h1] at hfalse
    simp at hfalse
  · intro q hq
    refine ⟨fun l hmem => ?_, ?_⟩
    · have hfalse := h2 q l hmem
      rw [hq] at hfalse
      simp at hfalse
    · unfold update_player_after_hand
      cases hfq : active_seats.findIdx? (fun s => s == q.seat_index) with
      | none => simpa using hq
      | some pk2 => simp [hq]

/-- Witness for C10: Bob (seat 5) busts and is marked eliminated. -/
theorem c10_witness :
    (update_player_after_hand [2, 5] [0, 0]
      ⟨"Bob", 5, 300, false⟩).is_eliminated = true :=
  (c10_eliminated_excluded_from_hand_end
    [⟨"Ann", 2, 400, false⟩, ⟨"Bob", 5, 300, false⟩] [2, 5] [0, 0]
    ⟨"Bob", 5, 300, false⟩ 1 (by decide) (by decide)).1

/-! Helper lemmas for the dealer-rotation claim. -/

/-- `foldl min` over elements all at least the accumulator returns the
accumulator. -/
theorem foldl_min_of_le (x : Nat) (l : List Nat) (hge : ∀ y ∈ l, x ≤ y) :
    l.foldl min x = x := by
  induction l generalizing x with
  | nil => rfl
  | cons y ys ih =>
    have hy : x ≤ y := hge y (by simp)
    have hxy : min x y = x := by omega
    show List.foldl min (min x y) ys = x
    rw [hxy]
    exact ih x (fun z hz => hge z (by simp [hz]))

/-- On a `<`-sorted nonempty list, `min?` is the head. -/
theorem sorted_min?_eq_head (x : Nat) (l : List Nat)
    (hs : List.Sorted (· < ·) (x :: l)) : (x :: l).min? = some x := by
  rw [List.min?_cons']
  rw [foldl_min_of_le x l
    (fun y hy => Nat.le_of_lt (List.rel_of_sorted_cons hs y hy))]

/-- `List.min?_eq_some_iff` instantiated at `Nat`. -/
theorem nat_min?_eq_some_iff {l : List Nat} {a : Nat} :
    l.min? = some a ↔ a ∈ l ∧ ∀ b ∈ l, a ≤ b :=
  List.min?_eq_some_iff (fun a => Nat.le_refl a)
    (fun a b => by omega) (fun a b c => by omega)

theorem next_dealer_spec_of_min? (seats : List Nat) (d m : Nat)
    (hm : (seats.filter (fun s => d < s)).min? = some m) :
    next_dealer_spec seats d = m := by
  unfold next_dealer_spec
  rw [hm]

theorem next_dealer_spec_of_empty (seats : List Nat) (d : Nat)
    (hfil : seats.filter (fun s => d < s) = []) :
    next_dealer_spec seats d = (seats.min?).getD 0 := by
  unfold next_dealer_spec
  rw [hfil]
  rfl

/-- When the previous dealer seat is still among the (ascending) active
seats, the rotation of the source equals the one the spec words describe:
smallest active seat strictly greater than the dealer, wrapping to the
smallest. -/
theorem rotate_dealer_eq_spec_of_mem (seats : List Nat) (d : Nat)
    (hs : List.Sorted (· < ·) seats) (hmem : d ∈ seats) :
    rotate_dealer seats d = next_dealer_spec seats d := by
  have hsg := List.pairwise_iff_getElem.mp hs
  obtain ⟨i, hfi⟩ : ∃ i, seats.findIdx? (fun s => s == d) = some i := by
    cases hfi : seats.findIdx? (fun s => s == d) with
    | some i => exact ⟨i, rfl⟩
    | none =>
      rw [List.findIdx?_eq_none_iff] at hfi
      have hd := hfi d hmem
      simp at hd
  obtain ⟨hilen, hpi, hfirst⟩ := List.findIdx?_eq_some_iff_getElem.mp hfi
  have hid : seats[i] = d := by simpa using hpi
  unfold rotate_dealer
  rw [hfi]
  show seats.getD ((i + 1) % seats.length) 0 = next_dealer_spec seats d
  rcases Nat.lt_or_ge (i + 1) seats.length with hlt | hge
  · -- no wrap: the result is seats[i+1], the least element greater than d
    rw [Nat.mod_eq_of_lt hlt]
    have hnext : seats.getD (i + 1) 0 = seats[i + 1] := by
      simp [List.getD_eq_getElem?_getD, List.getElem?_eq_getElem hlt]
    have hdlt : d < seats[i + 1] := by
      have hrel := hsg i (i + 1) hilen hlt (by omega)
      omega
    have hmin : (seats.filter (fun s => d < s)).min? = some (seats[i + 1]) := by
      rw [nat_min?_eq_some_iff]
      constructor
      · rw [List.mem_filter]
        exact ⟨List.getElem_mem hlt, by simpa using hdlt⟩
      · intro b hb
        rw [List.mem_filter] at hb
        obtain ⟨hbmem, hdb⟩ := hb
        obtain ⟨j, hj, rfl⟩ := List.mem_iff_getElem.mp hbmem
        have hdb' : d < seats[j] := by simpa using hdb
        have hij : i < j := by
          by_contra hcon
          push_neg at hcon
          rcases Nat.lt_or_eq_of_le hcon with hlt2 | heq
          · have hrel := hsg j i hj hilen hlt2
            omega
          · subst heq
            omega
        rcases Nat.lt_or_eq_of_le (Nat.succ_le_of_lt hij) with hlt3 | heq3
        · have hrel := hsg (i + 1) j hlt hj hlt3
          omega
        · subst heq3
          exact Nat.le_of_eq rfl
    rw [hnext, next_dealer_spec_of_min? seats d (seats[i + 1]) hmin]
  · -- wrap: i is the last index, d is the maximum, the spec falls back to
    -- the minimum, which is also seats[0]
    have hieq : i + 1 = seats.length := by omega
    rw [hieq, Nat.mod_self]
    have hfilter : seats.filter (fun s => d < s) = [] := by
      rw [List.filter_eq_nil_iff]
      intro b hbmem
      obtain ⟨j, hj, rfl⟩ := List.mem_iff_getElem.mp hbmem
      simp only [decide_eq_true_eq]
      have hji : j ≤ i := by omega
      rcases Nat.lt_or_eq_of_le hji with hlt2 | heq
      · have hrel := hsg j i hj hilen hlt2
        omega
      · subst heq
        omega
    rw [next_dealer_spec_of_empty seats d hfilter]
    obtain ⟨x, xs, rfl⟩ : ∃ x xs, seats = x :: xs := by
      cases seats with
      | nil => simp at hilen
      | cons x xs => exact ⟨x, xs, rfl⟩
    rw [sorted_min?_eq_head x xs hs]
    rfl

/-- When the previous dealer seat is no longer active (busted), the
rotation of the source yields the smallest active seat. -/
theorem rotate_dealer_not_mem (seats : List Nat) (d : Nat)
    (hs : List.Sorted (· < ·) seats) (hne : seats ≠ [])
    (hnm : d ∉ seats) :
    seats.min? = some (rotate_dealer seats d) := by
  have hfi : seats.findIdx? (fun s => s == d) = none := by
    rw [List.findIdx?_eq_none_iff]
    intro x hx
    have hxd : x ≠ d := fun heq => hnm (heq ▸ hx)
    simpa using hxd
  unfold rotate_dealer
  rw [hfi]
  obtain ⟨x, xs, rfl⟩ : ∃ x xs, seats = x :: xs := by
    cases seats with
    | nil => simp at hne
    | cons x xs => exact ⟨x, xs, rfl⟩
  rw [sorted_min?_eq_head x xs hs]
  rfl

/-- C5 counterexample: active seats {0, 2, 3} with previous dealer seat 1
(busted in the previous hand): the code rotates to seat 0 (the smallest
active seat), not to seat 2 (the smallest active seat strictly greater
than 1) as the claim states for a busted previous dealer. -/
theorem c5_counterexample :
    rotate_dealer [0, 2, 3] 1 = 0 ∧ next_dealer_spec [0, 2, 3] 1 = 2
    ∧ rotate_dealer [0, 2, 3] 1 ≠ next_dealer_spec [0, 2, 3] 1 := by
  decide

/-- C5 amended: when the previous `dealer_seat` is still an active seat,
the rotation sets `dealer_seat` to the smallest active seat strictly
greater than it, wrapping to the smallest active seat when no greater one
exists; when the previous `dealer_seat` is no longer active (its player
busted), the rotation falls back to the smallest active seat. -/
theorem c5_amended (seats : List Nat) (dealer_seat : Nat)
    (hs : List.Sorted (· < ·) seats) (hne : seats ≠ []) :
    (dealer_seat ∈ seats →
      rotate_dealer seats dealer_seat = next_dealer_spec seats dealer_seat)
    ∧ (dealer_seat ∉ seats →
      seats.min? = some (rotate_dealer seats dealer_seat)) :=
  ⟨fun hmem => rotate_dealer_eq_spec_of_mem seats dealer_seat hs hmem,
   fun hnm => rotate_dealer_not_mem seats dealer_seat hs hne hnm⟩

/-- Witness for C5 amended: an in-list rotation and a busted-dealer
fallback. -/
theorem c5_amended_witness :
    rotate_dealer [0, 2, 3] 2 = next_dealer_spec [0, 2, 3] 2
    ∧ [0, 2, 3].min? = some (rotate_dealer [0, 2, 3] 1) :=
  ⟨(c5_amended [0, 2, 3] 2 (by decide) (by decide)).1 (by decide),
   (c5_amended [0, 2, 3] 1 (by decide) (by decide)).2 (by decide)⟩

/-! Helper lemmas for the information-hiding claim. -/

theorem game_state_players_getD (h : PokerHandM) (R pk : Nat)
    (hpk : pk < h.active_players.length) :
    (game_state_players h R).getD pk default
      = game_state_player_entry h (seat_to_pk h R) pk := by
  unfold game_state_players
  have hlen : pk < ((List.range h.active_players.length).map
      (game_state_player_entry h (seat_to_pk h R))).length := by
    simpa using hpk
  rw [List.getD_eq_getElem?_getD, List.getElem?_eq_getElem hlen]
  simp

/-- Distinct seat indices make the pk-lookup injective. -/
theorem seat_index_getElem_inj (l : List PlayerInfoG)
    (hnd : (l.map PlayerInfoG.seat_index).Nodup)
    (i j : Nat) (hi : i < l.length) (hj : j < l.length)
    (heq : l[i].seat_index = l[j].seat_index) : i = j := by
  by_contra hne
  have hp := List.pairwise_iff_getElem.mp hnd
  rcases Nat.lt_or_ge i j with hlt | hge
  · have hx := hp i j (by simpa using hi) (by simpa using hj) hlt
    rw [List.getElem_map, List.getElem_map] at hx
    exact hx heq
  · have hlt2 : j < i := by omega
    have hx := hp j i (by simpa using hj) (by simpa using hi) hlt2
    rw [List.getElem_map, List.getElem_map] at hx
    exact hx heq.symm

/-- C6: in every `game_state` built for the player at seat `R` (and in the
`hand_start` sent to `R`), opponent hole cards are never card strings:
every entry whose seat differs from `R` carries `hole_cards_known = false`
and a list of `"??"` placeholders of the same length as the dealt cards
(empty when none are dealt), while the own entry of `R` carries the
actual card strings of `R` with `hole_cards_known = true`; the
`hand_start` for `R` carries only the own cards of `R`. -/
theorem c6_information_hiding (h : PokerHandM) (R pkR : Nat)
    (hpk : seat_to_pk h R = some pkR)
    (hnodup : (h.active_players.map PlayerInfoG.seat_index).Nodup) :
    ((get_game_state h R).players = game_state_players h R)
    ∧ (∀ pk, pk < h.active_players.length →
        (((game_state_players h R).getD pk default).seat ≠ R →
          ((game_state_players h R).getD pk default).hole_cards_known = false
          ∧ ((game_state_players h R).getD pk default).hole_cards
              = (h.state.hole_cards.getD pk []).map (fun _ => "??"))
        ∧ (((game_state_players h R).getD pk default).seat = R →
          ((game_state_players h R).getD pk default).hole_cards_known = true
          ∧ ((game_state_players h R).getD pk default).hole_cards
              = h.state.hole_cards.getD pk []))
    ∧ (((game_state_players h R).getD pkR default).seat = R)
    ∧ (∀ hn ds sbs bbs sba bba names stks,
        (build_hand_start hn ds sbs bbs sba bba names stks
          (get_hole_cards h R)).hole_cards = h.state.hole_cards.getD pkR []) := by
  have hpk2 : h.active_players.findIdx? (fun p => p.seat_index == R) = some pkR :=
    hpk
  obtain ⟨hpkR_len, hpkR_seat, _⟩ := List.findIdx?_eq_some_iff_getElem.mp hpk2
  have hseatR : (h.active_players[pkR]).seat_index = R := by simpa using hpkR_seat
  have hgetp : ∀ (pk : Nat) (hb : pk < h.active_players.length),
      h.active_players.getD pk default = h.active_players[pk] := by
    intro pk hlt
    rw [List.getD_eq_getElem?_getD, List.getElem?_eq_getElem hlt]
    rfl
  refine ⟨rfl, ?_, ?_, ?_⟩
  · intro pk hlt
    rw [game_state_players_getD h R pk hlt]
    by_cases hpkeq : pk = pkR
    · subst hpkeq
      constructor
      · intro hne
        exfalso
        apply hne
        show (h.active_players.getD pk default).seat_index = R
        rw [hgetp pk hlt]
        exact hseatR
      · intro _
        refine ⟨?_, ?_⟩
        · show (some pk == seat_to_pk h R) = true
          rw [hpk]
          simp
        · show (if (some pk == seat_to_pk h R) then h.state.hole_cards.getD pk []
              else (h.state.hole_cards.getD pk []).map (fun _ => "??"))
            = h.state.hole_cards.getD pk []
          rw [hpk]
          simp
    · constructor
      · intro _
        refine ⟨?_, ?_⟩
        · show (some pk == seat_to_pk h R) = false
          rw [hpk]
          simpa using hpkeq
        · show (if (some pk == seat_to_pk h R) then h.state.hole_cards.getD pk []
              else (h.state.hole_cards.getD pk []).map (fun _ => "??"))
            = (h.state.hole_cards.getD pk []).map (fun _ => "??")
          rw [hpk]
          have hfalse : ((some pk : Option Nat) == some pkR) = false := by
            simpa using hpkeq
          rw [hfalse]
          simp
      · intro hseat
        exfalso
        have hseatpk : h.active_players[pk].seat_index = R := by
          have hrfl : (game_state_player_entry h (seat_to_pk h R) pk).seat
              = (h.active_players.getD pk default).seat_index := rfl
          rw [hrfl, hgetp pk hlt] at hseat
          exact hseat
        exact hpkeq (seat_index_getElem_inj h.active_players hnodup pk pkR hlt
          hpkR_len (by rw [hseatpk, hseatR]))
  · rw [game_state_players_getD h R pkR hpkR_len]
    show (h.active_players.getD pkR default).seat_index = R
    rw [hgetp pkR hpkR_len]
    exact hseatR
  · intro hn ds sbs bbs sba bba names stks
    show get_hole_cards h R = h.state.hole_cards.getD pkR []
    unfold get_hole_cards
    rw [hpk]

/-- Witness for C6: in the two-player example hand, the view of Bob
(seat 1) censors the cards of Alice (seat 0) to placeholders. -/
theorem c6_witness :
    ((game_state_players exampleHand 1).getD 0 default).hole_cards_known = false
    ∧ ((game_state_players exampleHand 1).getD 0 default).hole_cards
        = (exampleHand.state.hole_cards.getD 0 []).map (fun _ => "??") :=
  ((c6_information_hiding exampleHand 1 1 (by decide) (by decide)).2.1 0
    (by decide)).1 (by decide)

end AlgoPoker
